import Mathlib

/-!
Verification development for the ZerePy agent core: a shallow embedding of
the connection dispatch contract (`perform_action` of the Solana, Pinecone,
Monad and OpenAI connections), the agent definition loader
(`ZerePyAgent.__init__`), the weighted task selector used by the agent loop
(`random.choices` over task weights), the time-based weight adjustment
described by the specification, one iteration of `ZerePyAgent.loop`, and the
`execute_bridge_tx` action handler.

Python values are embedded into the inductive `PyVal`; fallible Python code
is embedded with explicit exception results so that raising, catching and
in-place state mutation are all visible in the model. Python floats carry
exact decimal config values here, so they are modelled as rationals.
-/

namespace ZerePy

/-- Embedding of a Python runtime value, restricted to the shapes that flow
through the code under study: strings, ints, floats (modelled exactly as
rationals), booleans, lists, string-keyed dicts and `None`. -/
inductive PyVal where
  | vstr (s : String)
  | vint (n : Int)
  | vfloat (q : ℚ)
  | vbool (b : Bool)
  | vlist (l : List PyVal)
  | vdict (d : List (String × PyVal))
  | vnone

/-- Python truthiness of a value, as used in conditions such as
`if result and result.get("signature"):`. -/
def pyTruthy : PyVal → Bool
  | .vstr s => !s.isEmpty
  | .vint n => n != 0
  | .vfloat q => q != 0
  | .vbool b => b
  | .vlist l => !l.isEmpty
  | .vdict d => !d.isEmpty
  | .vnone => false

/-- First-match lookup in a string-keyed association list; Python dicts have
unique keys, so this agrees with `d[k]` / `d.get(k)` on well-formed dicts. -/
def assoc {α : Type} (l : List (String × α)) (k : String) : Option α :=
  (l.find? (fun kv => kv.1 == k)).map (fun kv => kv.2)

/-- Python `str.lower()`: lowercases each character. -/
def pyLower (s : String) : String :=
  ⟨s.data.map Char.toLower⟩

/-- Type tag of an `ActionParameter` (the Python classes `str`, `int`,
`float`, `bool`, `list` passed as the `type` argument). -/
inductive PyType where
  | tstr
  | tint
  | tfloat
  | tbool
  | tlist
  deriving Repr, DecidableEq

/-- A nonempty all-digit string: the strings coercible to a number. -/
def isDigitStr (s : String) : Bool :=
  !s.isEmpty && s.all Char.isDigit

/-- Modelled from the spec: the type check of `Action.validate_params`
(src/connections/base_connection.py is not present under src/, only its
importers are). Per section 4.1, a present value must match its declared
type or be coercible to it, numeric strings to numbers being the coercion
example given. -/
def typeMatches : PyType → PyVal → Bool
  | .tstr, .vstr _ => true
  | .tint, .vint _ => true
  | .tint, .vstr s => isDigitStr s
  | .tfloat, .vfloat _ => true
  | .tfloat, .vint _ => true
  | .tfloat, .vstr s => isDigitStr s
  | .tbool, .vbool _ => true
  | .tlist, .vlist _ => true
  | _, _ => false

/-- Embedding of `ActionParameter` from src/connections/base_connection.py
(declaration visible through its many call sites, e.g.
src/src/connections/pinecone_connection.py). -/
structure ActionParameter where
  name : String
  required : Bool
  type : PyType
  description : String

/-- Embedding of the `Action` descriptor owned by a connection (name,
ordered parameter list, description). -/
structure Action where
  name : String
  parameters : List ActionParameter
  description : String

/-- Modelled from the spec: `Action.validate_params`
(src/connections/base_connection.py, not present under src/). Section 4.1:
every `required` parameter must be present; every present parameter must
match its declared type (or be coercible); on any violation the result
lists every violation found, one message per violating parameter, in
parameter order. -/
def validateParams (ps : List ActionParameter) (kwargs : List (String × PyVal)) : List String :=
  ps.flatMap (fun p =>
    match assoc kwargs p.name with
    | none => if p.required then ["Missing required parameter: " ++ p.name] else []
    | some v => if typeMatches p.type v then [] else ["Invalid type for parameter: " ++ p.name])

/-- Python `action_name.replace(chr(45), chr(95))`: dashes to underscores,
used to derive the bound method name from the action name. -/
def snakeName (s : String) : String :=
  s.map (fun c => if c = '-' then '_' else c)

/-- Outcome of a validated `perform_action` dispatch: the raised `KeyError`
for an unknown action, the raised `ValueError` for invalid parameters, or
invocation of the underlying bound method with the given kwargs. -/
inductive PerformResult where
  | unknownAction (msg : String)
  | validationError (msg : String)
  | invoked (method : String) (kwargs : List (String × PyVal))

/-- Embedding of the shared body of `SolanaConnection.perform_action`
(src/src/connections/solana_connection.py) and
`PineconeConnection.perform_action`
(src/src/connections/pinecone_connection.py): unknown-action check, then
`validate_params`, raising `ValueError` joining all errors, else dispatch
to the method named by the action with dashes replaced by underscores. -/
def performActionValidated (actions : List (String × Action)) (action_name : String)
    (kwargs : List (String × PyVal)) : PerformResult :=
  match assoc actions action_name with
  | none => .unknownAction ("Unknown action: " ++ action_name)
  | some action =>
    let errors := validateParams action.parameters kwargs
    if !errors.isEmpty then
      .validationError ("Invalid parameters: " ++ String.intercalate ", " errors)
    else
      .invoked (snakeName action_name) kwargs

/-- The `upload-embeddings` action registered by
`PineconeConnection.register_actions`. -/
def pineconeUploadAction : Action :=
  ⟨"upload-embeddings",
   [⟨"index_name", true, .tstr, "Index name for the Pinecone connection."⟩,
    ⟨"embeddings", true, .tlist, "List of all embeddings that need to be uploaded."⟩,
    ⟨"chunk_texts", true, .tlist, "List of all the chunks of text that need to be uploaded to Pinecone."⟩],
   "Upload embeddings on Pinecone"⟩

/-- The `query-embeddings` action registered by
`PineconeConnection.register_actions`. -/
def pineconeQueryAction : Action :=
  ⟨"query-embeddings",
   [⟨"index_name", true, .tstr, "Index name for the Pinecone connection."⟩,
    ⟨"query_vector", true, .tlist, "Vector that needs to be queried in pinecone."⟩,
    ⟨"top_k", false, .tint, "Top K results to be pulled from the pinecone db."⟩],
   "Query embeddings on Pinecone"⟩

/-- The action registry built by `PineconeConnection.register_actions`. -/
def pineconeActions : List (String × Action) :=
  [("upload-embeddings", pineconeUploadAction),
   ("query-embeddings", pineconeQueryAction)]

/-- Embedding of `PineconeConnection.is_configured`: returns whether
`self.client` is not `None`. -/
def pineconeIsConfigured (client : Option Unit) : Bool :=
  client.isSome

/-- Outcome of `MonadConnection.perform_action`: it alone also raises
`MonadConnectionError` when the connection is not configured. -/
inductive MonadPerformResult where
  | unknownAction (msg : String)
  | notConfigured (msg : String)
  | validationError (msg : String)
  | invoked (method : String) (kwargs : List (String × PyVal))

/-- Embedding of `MonadConnection.perform_action`
(src/src/connections/monad_connection.py): unknown-action check, then the
`is_configured(verbose=True)` gate (its boolean result is passed in, since
it reads the environment and the network), then parameter validation, then
dispatch. -/
def monadPerformAction (actions : List (String × Action)) (configured : Bool)
    (action_name : String) (kwargs : List (String × PyVal)) : MonadPerformResult :=
  match assoc actions action_name with
  | none => .unknownAction ("Unknown action: " ++ action_name)
  | some action =>
    if !configured then
      .notConfigured "Monad connection is not properly configured"
    else
      let errors := validateParams action.parameters kwargs
      if !errors.isEmpty then
        .validationError ("Invalid parameters: " ++ String.intercalate ", " errors)
      else
        .invoked (snakeName action_name) kwargs

/-- The `transfer` action registered by `MonadConnection.register_actions`. -/
def monadTransferAction : Action :=
  ⟨"transfer",
   [⟨"to_address", true, .tstr, "Recipient address"⟩,
    ⟨"amount", true, .tfloat, "Amount to transfer"⟩,
    ⟨"token_address", false, .tstr, "Token address (optional, native token if not provided)"⟩],
   "Send native token or tokens"⟩

/-- The action registry built by `MonadConnection.register_actions`. -/
def monadActions : List (String × Action) :=
  [("get-balance",
    ⟨"get-balance",
     [⟨"address", false, .tstr, "Address to check balance for (optional)"⟩,
      ⟨"token_address", false, .tstr, "Token address (optional, native token if not provided)"⟩],
     "Get native or token balance"⟩),
   ("transfer", monadTransferAction),
   ("get-address", ⟨"get-address", [], "Get your Monad wallet address"⟩),
   ("swap",
    ⟨"swap",
     [⟨"token_in", true, .tstr, "Input token address"⟩,
      ⟨"token_out", true, .tstr, "Output token address"⟩,
      ⟨"amount", true, .tfloat, "Amount to swap"⟩,
      ⟨"slippage", false, .tfloat, "Max slippage percentage (default 0.5%)"⟩],
     "Swap tokens using 0x API"⟩)]

/-- An entry of `OpenAIConnection.actions`: the bound method and the
declared argument names with their type tags. -/
structure OpenAIAction where
  func : String
  args : List (String × String)
  deriving Repr, DecidableEq

/-- Outcome of `OpenAIConnection.perform_action`: the generic `Exception`
for an unknown action, or direct invocation of the stored func. -/
inductive OpenAIPerformResult where
  | raisedUnknown (msg : String)
  | invoked (func : String) (kwargs : List (String × PyVal))

/-- The `OpenAIConnection.actions` registry built in its constructor
(src/src/connections/openai_connection.py). -/
def openaiActions : List (String × OpenAIAction) :=
  [("generate-text", ⟨"generate_text", [("prompt", "str"), ("system_prompt", "str")]⟩),
   ("check-model", ⟨"check_model", []⟩),
   ("set-model", ⟨"set_model", [("model", "str")]⟩)]

/-- Embedding of `OpenAIConnection.perform_action`
(src/src/connections/openai_connection.py): if the action name is
registered, the stored func is called directly on the given kwargs; no
configuration check and no parameter validation happen. The `configured`
argument is the value `is_configured(verbose=True)` would return; the body
never consults it, mirroring the source. -/
def openaiPerformAction (configured : Bool) (actions : List (String × OpenAIAction))
    (action_name : String) (kwargs : List (String × PyVal)) : OpenAIPerformResult :=
  match assoc actions action_name with
  | some a => .invoked a.func kwargs
  | none => .raisedUnknown ("Unknown action: " ++ action_name)

/-- The `REQUIRED_FIELDS` constant of src/src/agent.py. -/
def REQUIRED_FIELDS : List String :=
  ["name", "bio", "traits", "examples", "loop_delay", "config", "tasks"]

/-- The list comprehension of `ZerePyAgent.__init__`: the required fields
absent from the agent definition, in `REQUIRED_FIELDS` order. -/
def missingFields (agent_dict : List (String × PyVal)) : List String :=
  REQUIRED_FIELDS.filter (fun f => (assoc agent_dict f).isNone)

/-- The required-field check at the top of `ZerePyAgent.__init__`
(src/src/agent.py): raises `KeyError` joining every missing field name. -/
def checkRequiredFields (agent_dict : List (String × PyVal)) : Except String Unit :=
  let missing := missingFields agent_dict
  if !missing.isEmpty then
    .error ("Missing required fields: " ++ String.intercalate ", " missing)
  else
    .ok ()

/-- The generator search of `ZerePyAgent.__init__`: the first entry of the
config list whose subscript `name` equals the string twitter, `None` when
there is none; subscripting a non-dict entry or an entry without a `name`
key raises. -/
def findTwitterConfig : List PyVal → Except String (Option (List (String × PyVal)))
  | [] => .ok none
  | c :: rest =>
    match c with
    | .vdict d =>
      match assoc d "name" with
      | none => .error "KeyError: name"
      | some (.vstr s) => if s == "twitter" then .ok (some d) else findTwitterConfig rest
      | some _ => findTwitterConfig rest
    | _ => .error "TypeError: configuration entry is not subscriptable"

/-- The comprehension building `self.task_weights`: iterates the tasks
value (raising if it is not a list) and reads `task.get` with default 0
(raising if a task entry is not a dict). -/
def extractTaskWeights : PyVal → Except String (List PyVal)
  | .vlist ts =>
    ts.mapM (fun t =>
      match t with
      | .vdict d => .ok ((assoc d "weight").getD (.vint 0))
      | _ => .error "AttributeError: task entry has no get method")
  | _ => .error "TypeError: tasks value is not iterable"

/-- The attributes a successful `ZerePyAgent.__init__` stores on the agent
(the ones the constructor computes from the definition; `self.state` starts
empty and `is_llm_set` false). -/
structure ZerePyAgentInit where
  name : PyVal
  bio : PyVal
  traits : PyVal
  examples : PyVal
  loop_delay : PyVal
  tweet_interval : PyVal
  own_tweet_replies_count : PyVal
  tasks : PyVal
  task_weights : List PyVal

/-- Embedding of `ZerePyAgent.__init__` (src/src/agent.py) applied to an
already-parsed agent definition dict. The `ConnectionManager` constructor
lives in src/connection_manager.py, which is not present under src/, so its
outcome on this config is passed in as `cm`; every raised error propagates
unchanged (the except clause of the source logs and re-raises). A found
twitter entry always has a `name` key, hence is a truthy dict, so the
`if not twitter_config:` test fires exactly when the search returned
`None`. -/
def zerePyAgentInit (agent_dict : List (String × PyVal)) (cm : Except String Unit) :
    Except String ZerePyAgentInit :=
  match checkRequiredFields agent_dict with
  | .error e => .error e
  | .ok _ =>
    match cm with
    | .error e => .error e
    | .ok _ =>
      match (match (assoc agent_dict "config").getD .vnone with
             | .vlist l => findTwitterConfig l
             | _ => .error "TypeError: config value is not iterable" :
             Except String (Option (List (String × PyVal)))) with
      | .error e => .error e
      | .ok none => .error "Twitter configuration is required"
      | .ok (some tw) =>
        match extractTaskWeights ((assoc agent_dict "tasks").getD (.vlist [])) with
        | .error e => .error e
        | .ok weights =>
          .ok ⟨(assoc agent_dict "name").getD .vnone,
               (assoc agent_dict "bio").getD .vnone,
               (assoc agent_dict "traits").getD .vnone,
               (assoc agent_dict "examples").getD .vnone,
               (assoc agent_dict "loop_delay").getD .vnone,
               (assoc tw "tweet_interval").getD (.vint 900),
               (assoc tw "own_tweet_replies_count").getD (.vint 2),
               (assoc agent_dict "tasks").getD (.vlist []), weights⟩

/-- Whether a config entry list contains a dict entry whose `name` key maps
to the string twitter (the property `ZerePyAgent.__init__` searches for). -/
def hasTwitterEntry : List PyVal → Bool
  | [] => false
  | .vdict d :: rest =>
    (match assoc d "name" with
     | some (.vstr s) => s == "twitter"
     | _ => false) || hasTwitterEntry rest
  | _ :: rest => hasTwitterEntry rest

/-- Whether an agent definition has a config list containing a twitter
entry. -/
def configHasTwitter (agent_dict : List (String × PyVal)) : Bool :=
  match (assoc agent_dict "config").getD .vnone with
  | .vlist l => hasTwitterEntry l
  | _ => false

/-- Embedding of `ZerePyAgent._setup_llm_provider` (src/src/agent.py): the
model providers returned by the connection manager, and the value of the
`TWITTER_USERNAME` environment variable, are passed in. Returns the chosen
provider and the lowercased username, or the raised error. -/
def setupLlmProvider (llm_providers : List String) (twitter_username_env : Option String) :
    Except String (String × String) :=
  match llm_providers with
  | [] => .error "No configured LLM provider found"
  | p :: _ =>
    let username := pyLower (twitter_username_env.getD "")
    if username.isEmpty then .error "Twitter username is required"
    else .ok (p, username)

/-- A loop task as the agent stores it after `__init__`: the `name` field
and the weight extracted by `task.get` with default 0 (config weights are
exact decimal literals, embedded as rationals). -/
structure Task where
  name : String
  weight : ℚ

/-- The total weight of a task list. -/
def totalWeight (tasks : List Task) : ℚ :=
  (tasks.map Task.weight).sum

/-- Running partial sums, as built by `itertools.accumulate` inside
`random.choices`. -/
def cumWeights : List ℚ → List ℚ
  | [] => []
  | w :: ws => w :: (cumWeights ws).map (fun c => w + c)

/-- The value of `bisect.bisect(cum, x, 0, hi)` for a monotone list `cum`
(which the cumulative weights of non-negative weights are): the number of
entries among the first `hi` that are at most `x`. -/
def bisectRight (cum : List ℚ) (x : ℚ) (hi : ℕ) : ℕ :=
  (cum.take hi).countP (fun c => decide (c ≤ x))

/-- The index drawn by `random.choices(population, weights=ws, k=1)` when
the uniform draw is `r`: CPython computes the cumulative weights, takes
`total` as their last entry, and bisects them at `random() * total` with
high bound `len - 1`. -/
def pyChoicesIndex (ws : List ℚ) (r : ℚ) : ℕ :=
  let cum := cumWeights ws
  let total := cum.getLastD 0
  bisectRight cum (r * total) (ws.length - 1)

/-- The inverse-CDF scan: the first index whose weight prefix exceeds `x`.
Used to characterise `pyChoicesIndex`. -/
def scanIdx : List ℚ → ℚ → ℕ
  | [], _ => 0
  | w :: ws, x => if x < w then 0 else scanIdx ws (x - w) + 1

/-- Embedding of the selection step
`random.choices(self.tasks, weights=self.task_weights, k=1)[0]` of
`ZerePyAgent.loop` (src/src/agent.py): CPython raises `IndexError` on an
empty population and `ValueError` when the total weight is not positive,
and otherwise returns the task at the bisected index. -/
def chooseTaskE (tasks : List Task) (r : ℚ) : Except String Task :=
  match tasks with
  | [] => .error "IndexError: list index out of range"
  | t0 :: _ =>
    let ws := tasks.map Task.weight
    let total := (cumWeights ws).getLastD 0
    if total ≤ 0 then .error "Total of weights must be greater than zero"
    else .ok (tasks.getD (pyChoicesIndex ws r) t0)

/-- Modelled from the spec: the task names of the posting category
(section 4.3 and the section 8 examples name `post-tweet`). The time-based
selection mode is described by the spec but not present in
src/src/agent.py. -/
def postingTaskNames : List String := ["post-tweet"]

/-- Modelled from the spec: the task names of the engagement category
(reply and like style tasks, per sections 4.3 and 8). -/
def engagementTaskNames : List String := ["reply-to-tweet", "like-tweet"]

/-- Modelled from the spec: the multiplier table of the agent definition;
a missing entry falls back to the documented defaults 0.4 and 1.5. -/
structure TimeMultipliers where
  tweet_night_multiplier : Option ℚ
  engagement_day_multiplier : Option ℚ

/-- Modelled from the spec: the deterministic time-based weight adjustment
of section 4.3, absent from src/src/agent.py. Night hours 1 to 5 multiply
every posting task weight by the night multiplier (default 0.4 = 2/5); day
hours 8 to 20 multiply every engagement task weight by the day multiplier
(default 1.5 = 3/2); all other weights are unchanged. -/
def adjustWeightsForTime (hour : ℕ) (tasks : List Task) (m : TimeMultipliers) : List ℚ :=
  let ws := tasks.map Task.weight
  let ws1 :=
    if 1 ≤ hour ∧ hour ≤ 5 then
      (tasks.zip ws).map (fun p =>
        if p.1.name ∈ postingTaskNames then p.2 * m.tweet_night_multiplier.getD (2/5) else p.2)
    else ws
  if 8 ≤ hour ∧ hour ≤ 20 then
    (tasks.zip ws1).map (fun p =>
      if p.1.name ∈ engagementTaskNames then p.2 * m.engagement_day_multiplier.getD (3/2) else p.2)
  else ws1

/-- The multiplicative factor the time adjustment applies to one task name
at one hour: the night multiplier for posting tasks at night, the day
multiplier for engagement tasks by day, and 1 otherwise. -/
def timeFactor (hour : ℕ) (name : String) (m : TimeMultipliers) : ℚ :=
  if 1 ≤ hour ∧ hour ≤ 5 ∧ name ∈ postingTaskNames then
    m.tweet_night_multiplier.getD (2/5)
  else if 8 ≤ hour ∧ hour ≤ 20 ∧ name ∈ engagementTaskNames then
    m.engagement_day_multiplier.getD (3/2)
  else 1

/-- Outcome of one external Python call: its return value, or the raised
exception message. -/
inductive PyResult (α : Type) where
  | ok (a : α)
  | exn (e : String)

/-- A timeline item as the loop reads it: a tweet dict accessed through
`get`, so every field may be absent. -/
structure Tweet where
  id : Option String
  text : Option String
  author_username : Option String
  author_id : Option String

/-- The agent state dict as the loop uses it: the `timeline_tweets` key
(absent, `None`, or a list) plus every other key, which the loop never
touches. -/
structure AgentState where
  timeline_tweets : Option (Option (List Tweet))
  extras : List (String × PyVal)

/-- The mutable locals of `ZerePyAgent.loop` visible across one iteration:
the state dict, `last_tweet_time`, and the two rate-limit reset stamps. -/
structure LoopState where
  state : AgentState
  last_tweet_time : ℚ
  tweet_limit_reset : Option ℚ
  timeline_limit_reset : Option ℚ

/-- The per-agent configuration the loop reads: fields set by
`ZerePyAgent.__init__` and `_setup_llm_provider`. -/
structure LoopConfig where
  name : String
  username : String
  loop_delay : ℚ
  tweet_interval : ℚ
  own_tweet_replies_count : ℕ
  tasks : List Task

/-- The external world of one loop iteration: the two `time.time()` reads,
the uniform draw of `random.choices`, and the outcome of each connection or
LLM call the iteration may make. -/
structure LoopEnv where
  now : ℚ
  now2 : ℚ
  r : ℚ
  read_timeline : PyResult (Option (List Tweet))
  prompt_llm : PyResult (Option String)
  post_tweet : PyResult Unit
  get_tweet_replies : PyResult (Option (List Tweet))
  reply_to_tweet : PyResult Unit
  like_tweet : PyResult Unit

/-- Outcome of the try body of one loop iteration: normal completion with
the new locals, the `success` flag, the seconds slept at the end of the
iteration (0 on a bare `continue`), and whether the post-tweet call
executed; or an exception carrying the locals at the moment of the raise
(Python mutates the state dict in place, so writes made before the raise
persist). -/
inductive IterOut where
  | ok (st : LoopState) (success : Bool) (sleep : ℚ) (posted : Bool)
  | exn (e : String) (st : LoopState)

/-- Python truthiness of an optional string (used for `if tweet_text:`,
`if not tweet_id:` and similar). -/
def truthyOptStr : Option String → Bool
  | none => false
  | some s => !s.isEmpty

/-- Python truthiness of an optional list (used for `if replies:`). -/
def truthyOptList : Option (List Tweet) → Bool
  | none => false
  | some l => !l.isEmpty

/-- The guard `self.X_limit_reset and current_time < self.X_limit_reset`:
a reset stamp is active when it is a truthy float and still lies ahead. -/
def resetActive (o : Option ℚ) (now : ℚ) : Bool :=
  match o with
  | none => false
  | some t => t != 0 && now < t

/-- The replenish guard of the loop: the `timeline_tweets` key is absent,
`None`, or an empty list. -/
def timelineEmpty : Option (Option (List Tweet)) → Bool
  | none => true
  | some none => true
  | some (some l) => l.isEmpty

/-- The tail of every non-skipped iteration:
`time.sleep(self.loop_delay if success else 60)`. -/
def finishSleep (cfg : LoopConfig) (st : LoopState) (success : Bool) (posted : Bool) : IterOut :=
  .ok st success (if success then cfg.loop_delay else 60) posted

/-- The `post-tweet` branch of `ZerePyAgent.loop`: when the tweet interval
has elapsed the LLM is prompted and, when the text is truthy, the tweet is
posted, `last_tweet_time` becomes the fresh `time.time()` value and
`success` is set; otherwise the branch logs and continues, skipping the
sleep. -/
def postTweetBranch (cfg : LoopConfig) (env : LoopEnv) (st : LoopState) : IterOut :=
  if cfg.tweet_interval ≤ env.now2 - st.last_tweet_time then
    match env.prompt_llm with
    | .exn e => .exn e st
    | .ok tweet_text =>
      if truthyOptStr tweet_text then
        match env.post_tweet with
        | .exn e => .exn e st
        | .ok _ => finishSleep cfg { st with last_tweet_time := env.now2 } true true
      else
        finishSleep cfg st false false
  else
    .ok st false 0 false

/-- The `reply-to-tweet` branch: pops the next timeline tweet, skips it
when it has no truthy id, detours through the own-tweet replies fetch when
it is the agent's own tweet, and otherwise prompts the LLM and posts the
reply. -/
def replyBranch (cfg : LoopConfig) (env : LoopEnv) (st : LoopState) : IterOut :=
  match st.state.timeline_tweets with
  | some (some (tweet :: rest)) =>
    let st1 : LoopState := { st with state := { st.state with timeline_tweets := some (some rest) } }
    if !truthyOptStr tweet.id then
      .ok st1 false 0 false
    else if pyLower (tweet.author_username.getD "") == cfg.username then
      match env.get_tweet_replies with
      | .exn e => .exn e st1
      | .ok replies =>
        let st2 : LoopState :=
          if truthyOptList replies then
            { st1 with state := { st1.state with
                timeline_tweets := some (some (rest ++ (replies.getD []).take cfg.own_tweet_replies_count)) } }
          else st1
        .ok st2 false 0 false
    else
      match env.prompt_llm with
      | .exn e => .exn e st1
      | .ok reply_text =>
        if truthyOptStr reply_text then
          match env.reply_to_tweet with
          | .exn e => .exn e st1
          | .ok _ => finishSleep cfg st1 true false
        else
          finishSleep cfg st1 false false
  | _ => finishSleep cfg st false false

/-- The `like-tweet` branch: pops the next timeline tweet, skips it when it
has no truthy id, and likes it. -/
def likeBranch (cfg : LoopConfig) (env : LoopEnv) (st : LoopState) : IterOut :=
  match st.state.timeline_tweets with
  | some (some (tweet :: rest)) =>
    let st1 : LoopState := { st with state := { st.state with timeline_tweets := some (some rest) } }
    if !truthyOptStr tweet.id then
      .ok st1 false 0 false
    else
      match env.like_tweet with
      | .exn e => .exn e st1
      | .ok _ => finishSleep cfg st1 true false
  | _ => finishSleep cfg st false false

/-- Dispatch on the selected task name; a name matching no branch falls
through to the sleep statement. -/
def dispatchTask (cfg : LoopConfig) (env : LoopEnv) (st : LoopState) (action_name : String) : IterOut :=
  if action_name == "post-tweet" then postTweetBranch cfg env st
  else if action_name == "reply-to-tweet" then replyBranch cfg env st
  else if action_name == "like-tweet" then likeBranch cfg env st
  else finishSleep cfg st false false

/-- The selection step and the dispatch that follow the replenish step. -/
def afterReplenish (cfg : LoopConfig) (env : LoopEnv) (st : LoopState) : IterOut :=
  match chooseTaskE cfg.tasks env.r with
  | .error e => .exn e st
  | .ok task => dispatchTask cfg env st task.name

/-- Embedding of the try body of one iteration of `ZerePyAgent.loop`
(src/src/agent.py): the timeline rate-limit guard (status logging has no
state effect), the replenish step that fetches the timeline into the state
dict when it is absent or empty, then selection and dispatch. -/
def loopIteration (cfg : LoopConfig) (env : LoopEnv) (st : LoopState) : IterOut :=
  if resetActive st.timeline_limit_reset env.now then
    .ok st false (min ((st.timeline_limit_reset.getD 0) - env.now) cfg.loop_delay) false
  else if timelineEmpty st.state.timeline_tweets then
    match env.read_timeline with
    | .exn e => .exn e st
    | .ok v => afterReplenish cfg env { st with state := { st.state with timeline_tweets := some v } }
  else
    afterReplenish cfg env st

/-- What one pass of the while loop does after the try body: on normal
completion the slept seconds are those of the body; on an exception the
loop logs it and sleeps `loop_delay`. Either way the loop proceeds with the
carried locals — only `KeyboardInterrupt` leaves the loop. -/
structure StepResult where
  st : LoopState
  sleep : ℚ

/-- The catch-all boundary of the while loop of `ZerePyAgent.loop`. -/
def loopStep (cfg : LoopConfig) (env : LoopEnv) (st : LoopState) : StepResult :=
  match loopIteration cfg env st with
  | .ok st1 _success sleep _posted => ⟨st1, sleep⟩
  | .exn _e st1 => ⟨st1, cfg.loop_delay⟩

/-- Removal of a key from a dict embedded as a unique-key association
list (`dict.pop(key, None)`). -/
def dictPop (d : List (String × PyVal)) (k : String) : List (String × PyVal) :=
  d.filter (fun kv => kv.1 != k)

/-- The status dict the debridge handlers return from their except
clauses. -/
def errorDict (msg : String) : PyVal :=
  .vdict [("status", .vstr "error"), ("message", .vstr msg)]

/-- Python `v.get(k, default)`: raises `AttributeError` when `v` is not a
dict. -/
def pyDictGet (v : PyVal) (k : String) (default : PyVal) : Except String PyVal :=
  match v with
  | .vdict d => .ok ((assoc d k).getD default)
  | _ => .error "AttributeError: value has no get method"

/-- Python `v[k]`: raises on a non-dict or a missing key. -/
def pySubscript (v : PyVal) (k : String) : Except String PyVal :=
  match v with
  | .vdict d =>
    match assoc d k with
    | some x => .ok x
    | none => .error ("KeyError: " ++ k)
  | _ => .error "TypeError: value is not subscriptable"

/-- The slice `v[:10]` as the handler applies it to a signature value
(string signatures; slicing another value raises). -/
def pySlice10 : PyVal → Except String String
  | .vstr s => .ok (s.take 10)
  | _ => .error "TypeError: value cannot be sliced"

/-- The return dict of `execute_bridge_transaction`, built after the
optional pop: reads the signature twice through `get` (default `None`,
then default empty string) and slices the latter. -/
def bridgeReturn (state : List (String × PyVal)) (result : PyVal) :
    Except (String × List (String × PyVal)) (List (String × PyVal) × PyVal) :=
  match pyDictGet result "signature" .vnone with
  | .error e => .error (e, state)
  | .ok sig =>
    match pyDictGet result "signature" (.vstr "") with
    | .error e => .error (e, state)
    | .ok sigd =>
      match pySlice10 sigd with
      | .error e => .error (e, state)
      | .ok s10 =>
        .ok (state, .vdict [("status", .vstr "success"), ("signature", sig),
          ("message", .vstr ("Successfully executed bridge transaction. Signature: " ++ s10 ++ "..."))])

/-- The try body of `execute_bridge_transaction`
(src/src/actions/debridge_actions.py): reads the pending transaction from
the state dict, returns the error dict when it is falsy, dispatches the
bridge execution (its outcome is `performResult`), pops the pending key
only inside the `if result and result.get(signature):` block (after the
logging subscript and slice), and builds the success dict. An error
carries the state dict at the moment of the raise. -/
def executeBridgeBody (state : List (String × PyVal)) (performResult : PyResult PyVal) :
    Except (String × List (String × PyVal)) (List (String × PyVal) × PyVal) :=
  if !pyTruthy ((assoc state "pending_bridge_tx").getD .vnone) then
    .ok (state, errorDict "No pending bridge transaction")
  else
    match performResult with
    | .exn e => .error (e, state)
    | .ok result =>
      if pyTruthy result then
        match pyDictGet result "signature" .vnone with
        | .error e => .error (e, state)
        | .ok sigv =>
          if pyTruthy sigv then
            match pySubscript result "signature" with
            | .error e => .error (e, state)
            | .ok sig2 =>
              match pySlice10 sig2 with
              | .error e => .error (e, state)
              | .ok _ => bridgeReturn (dictPop state "pending_bridge_tx") result
          else
            bridgeReturn state result
      else
        bridgeReturn state result

/-- Embedding of the whole `execute_bridge_transaction` handler: the except
clause catches every exception and returns the error status dict, so the
handler always returns a state dict and a status dict. -/
def executeBridgeTx (state : List (String × PyVal)) (performResult : PyResult PyVal) :
    List (String × PyVal) × PyVal :=
  match executeBridgeBody state performResult with
  | .ok (st, v) => (st, v)
  | .error (e, st) => (st, errorDict e)

/-- Whether a dispatched bridge execution result is truthy and carries a
truthy signature (the pop condition of the handler). -/
def resultHasSignature (v : PyVal) : Bool :=
  pyTruthy v &&
    (match v with
     | .vdict d => pyTruthy ((assoc d "signature").getD .vnone)
     | _ => false)

/-- The loop locals an iteration outcome carries, both on normal
completion and on a raise. -/
def stateOf : IterOut → LoopState
  | .ok st _ _ _ => st
  | .exn _ st => st

/-- Whether the iteration outcome records an executed post-tweet call (a
raise means the call did not complete). -/
def postedOf : IterOut → Bool
  | .ok _ _ _ p => p
  | .exn _ _ => false

/-- C1 (amended): for `SolanaConnection` and `PineconeConnection` — the
connections the claim cites, whose `perform_action` bodies are identical
and embedded here as `performActionValidated` — calling a registered
action with violating params raises a `ValueError` whose message joins
every violation found: every missing required parameter and every
ill-typed present parameter contributes its own message, and the
underlying method is never invoked. The original claim quantified over
every Connection and fails for `OpenAIConnection`, see the
counterexample. -/
theorem c1_validation_lists_all_violations (actions : List (String × Action))
    (action_name : String) (a : Action) (kwargs : List (String × PyVal))
    (hlook : assoc actions action_name = some a)
    (hviol : validateParams a.parameters kwargs ≠ []) :
    performActionValidated actions action_name kwargs =
      .validationError ("Invalid parameters: " ++ String.intercalate ", "
        (validateParams a.parameters kwargs))
    ∧ (∀ m kw, performActionValidated actions action_name kwargs ≠ .invoked m kw)
    ∧ (∀ p, p ∈ a.parameters → p.required = true → assoc kwargs p.name = none →
        ("Missing required parameter: " ++ p.name) ∈ validateParams a.parameters kwargs)
    ∧ (∀ p v, p ∈ a.parameters → assoc kwargs p.name = some v → typeMatches p.type v = false →
        ("Invalid type for parameter: " ++ p.name) ∈ validateParams a.parameters kwargs) := by
  have hne : (validateParams a.parameters kwargs).isEmpty = false := by
    cases hv : validateParams a.parameters kwargs with
    | nil => exact absurd hv hviol
    | cons x xs => rfl
  have heq : performActionValidated actions action_name kwargs =
      .validationError ("Invalid parameters: " ++ String.intercalate ", "
        (validateParams a.parameters kwargs)) := by
    unfold performActionValidated
    rw [hlook]
    simp [hne]
  refine ⟨heq, ?_, ?_, ?_⟩
  · intro m kw h
    rw [heq] at h
    exact PerformResult.noConfusion h
  · intro p hp hreq hnone
    unfold validateParams
    rw [List.mem_flatMap]
    exact ⟨p, hp, by rw [hnone]; simp [hreq]⟩
  · intro p v hp hsome hty
    unfold validateParams
    rw [List.mem_flatMap]
    exact ⟨p, hp, by rw [hsome]; simp [hty]⟩

/-- Witness for C1: calling the Pinecone `upload-embeddings` action with
only `index_name` yields the `ValueError` naming both missing required
parameters, `embeddings` and `chunk_texts`. -/
theorem c1_validation_lists_all_violations_witness :
    (assoc pineconeActions "upload-embeddings" = some pineconeUploadAction
     ∧ validateParams pineconeUploadAction.parameters [("index_name", PyVal.vstr "i")] ≠ [])
    ∧ performActionValidated pineconeActions "upload-embeddings" [("index_name", PyVal.vstr "i")] =
        .validationError ("Invalid parameters: " ++ String.intercalate ", "
          (validateParams pineconeUploadAction.parameters [("index_name", PyVal.vstr "i")])) :=
  ⟨⟨rfl, by decide⟩,
   (c1_validation_lists_all_violations pineconeActions "upload-embeddings" pineconeUploadAction
      [("index_name", PyVal.vstr "i")] rfl (by decide)).1⟩

/-- C1 counterexample: `OpenAIConnection.perform_action` invokes the
underlying implementation even when a present parameter has the wrong
declared type (`set-model` declares `model` as a string and is called with
the int 5): no validation error is raised and the implementation runs, so
the claim is false for every Connection. -/
theorem c1_openai_invokes_without_validation :
    openaiPerformAction true openaiActions "set-model" [("model", PyVal.vint 5)] =
      .invoked "set_model" [("model", PyVal.vint 5)] := rfl

/-- C2 (amended): `MonadConnection.perform_action` — cited by the claim —
fails with `MonadConnectionError` whenever `is_configured(verbose=True)`
is false and the action name is registered, before parameter validation
and before the implementation can run, whatever the params are. The
original claim quantified over every Connection and fails for
`OpenAIConnection`, whose `perform_action` never consults
`is_configured`; see the counterexample. -/
theorem c2_monad_not_configured_gate (actions : List (String × Action))
    (action_name : String) (a : Action) (kwargs : List (String × PyVal))
    (hlook : assoc actions action_name = some a) :
    monadPerformAction actions false action_name kwargs =
      .notConfigured "Monad connection is not properly configured" := by
  unfold monadPerformAction
  rw [hlook]
  simp

/-- Witness for C2: the Monad `transfer` action with an unconfigured
connection fails with the not-configured error, even on params that would
also fail validation. -/
theorem c2_monad_not_configured_gate_witness :
    assoc monadActions "transfer" = some monadTransferAction
    ∧ monadPerformAction monadActions false "transfer" [("to_address", PyVal.vint 3)] =
        .notConfigured "Monad connection is not properly configured" :=
  ⟨rfl, c2_monad_not_configured_gate monadActions "transfer" monadTransferAction
     [("to_address", PyVal.vint 3)] rfl⟩

/-- C2 counterexample: `OpenAIConnection.perform_action` dispatches a
registered action (`check-model`) directly even when
`is_configured(verbose=True)` is false — no not-configured failure occurs,
so the claim is false for every Connection. -/
theorem c2_openai_ignores_configuration :
    openaiPerformAction false openaiActions "check-model" [] =
      .invoked "check_model" [] := rfl

/-- C7 (amended): when the agent username credential is unavailable (the
`TWITTER_USERNAME` variable unset or empty), `_setup_llm_provider` raises
`ValueError` and loop initialization aborts; there is no degraded mode and
no mandatory-identity flag. -/
theorem c7_missing_username_aborts (providers : List String) (u : Option String)
    (hne : providers ≠ [])
    (hu : (pyLower (u.getD "")).isEmpty = true) :
    setupLlmProvider providers u = .error "Twitter username is required" := by
  cases providers with
  | nil => exact absurd rfl hne
  | cons p ps => simp [setupLlmProvider, hu]

/-- Witness for C7: one provider configured, username variable absent. -/
theorem c7_missing_username_aborts_witness :
    (["openai"] ≠ ([] : List String))
    ∧ ((pyLower ((none : Option String).getD "")).isEmpty = true)
    ∧ setupLlmProvider ["openai"] none = .error "Twitter username is required" :=
  ⟨by decide, by decide, c7_missing_username_aborts ["openai"] none (by decide) (by decide)⟩

/-- C7 counterexample: with a provider available but the username
unavailable, `_setup_llm_provider` raises instead of proceeding in a
degraded mode with a warning — the claimed behavior does not exist in the
code. -/
theorem c7_no_degraded_mode :
    setupLlmProvider ["openai"] none = .error "Twitter username is required" := rfl

/-- C8: loading an agent definition missing required fields fails with a
`KeyError` joining exactly the missing ones — `missingFields` contains
precisely every required field absent from the definition, and the raised
message is their comma-separated join — while a definition containing all
seven passes the required-field check. -/
theorem c8_missing_fields_all_named (agent_dict : List (String × PyVal))
    (cm : Except String Unit) :
    (missingFields agent_dict ≠ [] →
      zerePyAgentInit agent_dict cm =
        .error ("Missing required fields: " ++ String.intercalate ", " (missingFields agent_dict)))
    ∧ (∀ g, g ∈ missingFields agent_dict ↔ g ∈ REQUIRED_FIELDS ∧ assoc agent_dict g = none)
    ∧ (missingFields agent_dict = [] → checkRequiredFields agent_dict = .ok ()) := by
  refine ⟨?_, ?_, ?_⟩
  · intro h
    have hne : (missingFields agent_dict).isEmpty = false := by
      cases hv : missingFields agent_dict with
      | nil => exact absurd hv h
      | cons x xs => rfl
    have hc : checkRequiredFields agent_dict =
        .error ("Missing required fields: " ++ String.intercalate ", " (missingFields agent_dict)) := by
      unfold checkRequiredFields
      simp [hne]
    unfold zerePyAgentInit
    rw [hc]
  · intro g
    unfold missingFields
    simp [List.mem_filter, Option.isNone_iff_eq_none]
  · intro h
    unfold checkRequiredFields
    simp [h]

/-- Witness for C8: a definition with only `name` and `tasks` fails naming
all five other required fields; a complete one passes the check. -/
theorem c8_missing_fields_all_named_witness :
    (missingFields [("name", PyVal.vstr "a"), ("tasks", PyVal.vlist [])] ≠ [])
    ∧ zerePyAgentInit [("name", PyVal.vstr "a"), ("tasks", PyVal.vlist [])] (.ok ()) =
        .error ("Missing required fields: " ++ String.intercalate ", "
          (missingFields [("name", PyVal.vstr "a"), ("tasks", PyVal.vlist [])])) :=
  ⟨by decide,
   (c8_missing_fields_all_named [("name", PyVal.vstr "a"), ("tasks", PyVal.vlist [])]
      (.ok ())).1 (by decide)⟩

/-- A successful twitter search over a config list implies the list has a
twitter entry. -/
theorem findTwitterConfig_ok_some (l : List PyVal) (d : List (String × PyVal))
    (h : findTwitterConfig l = .ok (some d)) : hasTwitterEntry l = true := by
  induction l with
  | nil => simp [findTwitterConfig] at h
  | cons c rest ih =>
    cases c with
    | vdict d0 =>
      simp only [findTwitterConfig] at h
      unfold hasTwitterEntry
      cases hn : assoc d0 "name" with
      | none => rw [hn] at h; simp at h
      | some v =>
        rw [hn] at h
        cases v with
        | vstr s =>
          by_cases hs : s == "twitter"
          · simp [hs]
          · simp only [hs, if_neg, Bool.false_eq_true, reduceIte] at h
            simp [hs, ih h]
        | vint n => simp at h; simp [ih h]
        | vfloat q => simp at h; simp [ih h]
        | vbool b => simp at h; simp [ih h]
        | vlist l2 => simp at h; simp [ih h]
        | vdict d2 => simp at h; simp [ih h]
        | vnone => simp at h; simp [ih h]
    | vstr s => simp [findTwitterConfig] at h
    | vint n => simp [findTwitterConfig] at h
    | vfloat q => simp [findTwitterConfig] at h
    | vbool b => simp [findTwitterConfig] at h
    | vlist l2 => simp [findTwitterConfig] at h
    | vnone => simp [findTwitterConfig] at h

/-- C9: `ZerePyAgent.__init__` succeeds only on definitions whose config
list has an entry named twitter; on any definition without one — even one
with every required top-level field — construction raises. -/
theorem c9_twitter_config_required (agent_dict : List (String × PyVal))
    (cm : Except String Unit) :
    (∀ r, zerePyAgentInit agent_dict cm = .ok r → configHasTwitter agent_dict = true)
    ∧ (missingFields agent_dict = [] → configHasTwitter agent_dict = false →
        ∃ e, zerePyAgentInit agent_dict cm = .error e) := by
  have hmain : ∀ r, zerePyAgentInit agent_dict cm = .ok r → configHasTwitter agent_dict = true := by
    intro r hres
    unfold zerePyAgentInit at hres
    split at hres
    · exact Except.noConfusion hres
    · split at hres
      · exact Except.noConfusion hres
      · split at hres
        · exact Except.noConfusion hres
        · exact Except.noConfusion hres
        · next tw hfind =>
          split at hres
          · exact Except.noConfusion hres
          · unfold configHasTwitter
            revert hfind
            split
            · next l2 hl2 =>
              intro hfind
              exact findTwitterConfig_ok_some l2 tw hfind
            · intro hfind
              exact Except.noConfusion hfind
  refine ⟨hmain, ?_⟩
  intro _hmf hno
  cases hres : zerePyAgentInit agent_dict cm with
  | ok r => rw [hmain r hres] at hno; exact Bool.noConfusion hno
  | error e => exact ⟨e, rfl⟩

/-- Witness for C9: a complete definition whose only config entry is
openai fails to construct. -/
theorem c9_twitter_config_required_witness :
    (missingFields [("name", PyVal.vstr "a"), ("bio", PyVal.vlist []),
        ("traits", PyVal.vlist []), ("examples", PyVal.vlist []),
        ("loop_delay", PyVal.vint 5),
        ("config", PyVal.vlist [PyVal.vdict [("name", PyVal.vstr "openai")]]),
        ("tasks", PyVal.vlist [])] = [])
    ∧ (configHasTwitter [("name", PyVal.vstr "a"), ("bio", PyVal.vlist []),
        ("traits", PyVal.vlist []), ("examples", PyVal.vlist []),
        ("loop_delay", PyVal.vint 5),
        ("config", PyVal.vlist [PyVal.vdict [("name", PyVal.vstr "openai")]]),
        ("tasks", PyVal.vlist [])] = false)
    ∧ ∃ e, zerePyAgentInit [("name", PyVal.vstr "a"), ("bio", PyVal.vlist []),
        ("traits", PyVal.vlist []), ("examples", PyVal.vlist []),
        ("loop_delay", PyVal.vint 5),
        ("config", PyVal.vlist [PyVal.vdict [("name", PyVal.vstr "openai")]]),
        ("tasks", PyVal.vlist [])] (.ok ()) = .error e :=
  ⟨by decide, by rfl,
   (c9_twitter_config_required _ (.ok ())).2 (by decide) (by rfl)⟩

/-- The return-dict builder leaves the state dict it is given untouched,
whether it returns or raises. -/
theorem bridgeReturn_state (s : List (String × PyVal)) (result : PyVal) :
    (∀ st1 v, bridgeReturn s result = .ok (st1, v) → st1 = s)
    ∧ (∀ e st1, bridgeReturn s result = .error (e, st1) → st1 = s) := by
  unfold bridgeReturn
  constructor
  · intro st1 v h
    split at h
    · exact Except.noConfusion h
    · split at h
      · exact Except.noConfusion h
      · split at h
        · exact Except.noConfusion h
        · simp only [Except.ok.injEq, Prod.mk.injEq] at h
          exact h.1.symm
  · intro e st1 h
    split at h
    · simp only [Except.error.injEq, Prod.mk.injEq] at h
      exact h.2.symm
    · split at h
      · simp only [Except.error.injEq, Prod.mk.injEq] at h
        exact h.2.symm
      · split at h
        · simp only [Except.error.injEq, Prod.mk.injEq] at h
          exact h.2.symm
        · exact Except.noConfusion h

/-- A `get` of the signature key that returns a truthy value on a truthy
result means the result is a dict whose signature entry is truthy. -/
theorem resultHasSignature_of_get (result sigv : PyVal)
    (hres : pyTruthy result = true)
    (hget : pyDictGet result "signature" PyVal.vnone = .ok sigv)
    (hsig : pyTruthy sigv = true) :
    resultHasSignature result = true := by
  cases result with
  | vdict d =>
    unfold pyDictGet at hget
    simp only [Except.ok.injEq] at hget
    unfold resultHasSignature
    rw [hres]
    simp only [Bool.true_and]
    rw [hget]
    exact hsig
  | vstr s => exact Except.noConfusion hget
  | vint n => exact Except.noConfusion hget
  | vfloat q => exact Except.noConfusion hget
  | vbool b => exact Except.noConfusion hget
  | vlist l => exact Except.noConfusion hget
  | vnone => exact Except.noConfusion hget

/-- The try body of the bridge handler either leaves the state dict alone,
or pops the pending key, and the pop happens only under a truthy result
with a truthy signature (whether the body then returns or raises). -/
theorem executeBridgeBody_state_cases (state : List (String × PyVal)) (pr : PyResult PyVal) :
    (∀ st1 v, executeBridgeBody state pr = .ok (st1, v) →
      st1 = state ∨ (st1 = dictPop state "pending_bridge_tx" ∧
        ∃ result, pr = .ok result ∧ resultHasSignature result = true))
    ∧ (∀ e st1, executeBridgeBody state pr = .error (e, st1) →
      st1 = state ∨ (st1 = dictPop state "pending_bridge_tx" ∧
        ∃ result, pr = .ok result ∧ resultHasSignature result = true)) := by
  constructor
  · intro st1 v h
    unfold executeBridgeBody at h
    by_cases hpend : pyTruthy ((assoc state "pending_bridge_tx").getD PyVal.vnone)
    · rw [hpend] at h
      simp only [Bool.not_true, Bool.false_eq_true, if_false] at h
      cases pr with
      | exn e => exact Except.noConfusion h
      | ok result =>
        dsimp only [] at h
        by_cases hres : pyTruthy result
        · rw [if_pos hres] at h
          cases hget : pyDictGet result "signature" PyVal.vnone with
          | error e2 => simp only [hget] at h; exact Except.noConfusion h
          | ok sigv =>
            simp only [hget] at h
            by_cases hsig : pyTruthy sigv
            · rw [if_pos hsig] at h
              cases hsub : pySubscript result "signature" with
              | error e3 => simp only [hsub] at h; exact Except.noConfusion h
              | ok sig2 =>
                simp only [hsub] at h
                cases hslice : pySlice10 sig2 with
                | error e4 => simp only [hslice] at h; exact Except.noConfusion h
                | ok s10 =>
                  simp only [hslice] at h
                  exact Or.inr ⟨(bridgeReturn_state _ result).1 st1 v h, result, rfl,
                    resultHasSignature_of_get result sigv hres hget hsig⟩
            · rw [if_neg hsig] at h
              exact Or.inl ((bridgeReturn_state state result).1 st1 v h)
        · rw [if_neg hres] at h
          exact Or.inl ((bridgeReturn_state state result).1 st1 v h)
    · simp only [Bool.not_eq_true] at hpend
      rw [hpend] at h
      simp only [Bool.not_false, if_true] at h
      simp only [Except.ok.injEq, Prod.mk.injEq] at h
      exact Or.inl h.1.symm
  · intro e st1 h
    unfold executeBridgeBody at h
    by_cases hpend : pyTruthy ((assoc state "pending_bridge_tx").getD PyVal.vnone)
    · rw [hpend] at h
      simp only [Bool.not_true, Bool.false_eq_true, if_false] at h
      cases pr with
      | exn e0 =>
        simp only [Except.error.injEq, Prod.mk.injEq] at h
        exact Or.inl h.2.symm
      | ok result =>
        dsimp only [] at h
        by_cases hres : pyTruthy result
        · rw [if_pos hres] at h
          cases hget : pyDictGet result "signature" PyVal.vnone with
          | error e2 =>
            simp only [hget] at h
            simp only [Except.error.injEq, Prod.mk.injEq] at h
            exact Or.inl h.2.symm
          | ok sigv =>
            simp only [hget] at h
            by_cases hsig : pyTruthy sigv
            · rw [if_pos hsig] at h
              cases hsub : pySubscript result "signature" with
              | error e3 =>
                simp only [hsub] at h
                simp only [Except.error.injEq, Prod.mk.injEq] at h
                exact Or.inl h.2.symm
              | ok sig2 =>
                simp only [hsub] at h
                cases hslice : pySlice10 sig2 with
                | error e4 =>
                  simp only [hslice] at h
                  simp only [Except.error.injEq, Prod.mk.injEq] at h
                  exact Or.inl h.2.symm
                | ok s10 =>
                  simp only [hslice] at h
                  exact Or.inr ⟨(bridgeReturn_state _ result).2 e st1 h, result, rfl,
                    resultHasSignature_of_get result sigv hres hget hsig⟩
            · rw [if_neg hsig] at h
              exact Or.inl ((bridgeReturn_state state result).2 e st1 h)
        · rw [if_neg hres] at h
          exact Or.inl ((bridgeReturn_state state result).2 e st1 h)
    · simp only [Bool.not_eq_true] at hpend
      rw [hpend] at h
      simp only [Bool.not_false, if_true] at h
      exact Except.noConfusion h

/-- C10: the `execute_bridge_tx` handler removes `pending_bridge_tx` from
the state dict only when the dispatched execution returned a truthy result
carrying a truthy signature; on a raised exception, or on a result without
a signature, the state dict is unchanged and the handler returns a status
dict instead of propagating. -/
theorem c10_bridge_pending_kept_unless_signature (state : List (String × PyVal))
    (pr : PyResult PyVal) :
    (∀ result, pr = .ok result → resultHasSignature result = false →
      (executeBridgeTx state pr).1 = state)
    ∧ (∀ e, pr = .exn e →
      (executeBridgeTx state pr).1 = state ∧
      (executeBridgeTx state pr).2 =
        (if pyTruthy ((assoc state "pending_bridge_tx").getD .vnone) then errorDict e
         else errorDict "No pending bridge transaction"))
    ∧ (assoc state "pending_bridge_tx" ≠ none →
       assoc (executeBridgeTx state pr).1 "pending_bridge_tx" = none →
       ∃ result, pr = .ok result ∧ resultHasSignature result = true) := by
  refine ⟨?_, ?_, ?_⟩
  · intro result hpr hsig
    unfold executeBridgeTx
    cases hbody : executeBridgeBody state pr with
    | ok p =>
      rcases p with ⟨st1, v⟩
      rcases (executeBridgeBody_state_cases state pr).1 st1 v hbody with h1 | ⟨_, result2, hpr2, hsig2⟩
      · simpa using h1
      · rw [hpr] at hpr2
        cases hpr2
        rw [hsig] at hsig2
        exact Bool.noConfusion hsig2
    | error p =>
      rcases p with ⟨e, st1⟩
      rcases (executeBridgeBody_state_cases state pr).2 e st1 hbody with h1 | ⟨_, result2, hpr2, hsig2⟩
      · simpa using h1
      · rw [hpr] at hpr2
        cases hpr2
        rw [hsig] at hsig2
        exact Bool.noConfusion hsig2
  · intro e hpr
    subst hpr
    by_cases hpend : pyTruthy ((assoc state "pending_bridge_tx").getD PyVal.vnone)
    · have hbody : executeBridgeBody state (PyResult.exn e) = .error (e, state) := by
        unfold executeBridgeBody
        rw [hpend]
        rfl
      refine ⟨?_, ?_⟩
      · unfold executeBridgeTx
        rw [hbody]
      · unfold executeBridgeTx
        rw [hbody, if_pos hpend]
    · have hpend2 : pyTruthy ((assoc state "pending_bridge_tx").getD PyVal.vnone) = false := by
        simpa using hpend
      have hbody : executeBridgeBody state (PyResult.exn e) =
          .ok (state, errorDict "No pending bridge transaction") := by
        unfold executeBridgeBody
        rw [hpend2]
        rfl
      refine ⟨?_, ?_⟩
      · unfold executeBridgeTx
        rw [hbody]
      · unfold executeBridgeTx
        rw [hbody, if_neg hpend]
  · intro hpresent habsent
    cases hbody : executeBridgeBody state pr with
    | ok p =>
      rcases p with ⟨st1, v⟩
      have hfst : (executeBridgeTx state pr).1 = st1 := by
        unfold executeBridgeTx
        rw [hbody]
      rcases (executeBridgeBody_state_cases state pr).1 st1 v hbody with h1 | ⟨_, result, hpr, hsig⟩
      · rw [hfst, h1] at habsent
        exact absurd habsent hpresent
      · exact ⟨result, hpr, hsig⟩
    | error p =>
      rcases p with ⟨e, st1⟩
      have hfst : (executeBridgeTx state pr).1 = st1 := by
        unfold executeBridgeTx
        rw [hbody]
      rcases (executeBridgeBody_state_cases state pr).2 e st1 hbody with h1 | ⟨_, result, hpr, hsig⟩
      · rw [hfst, h1] at habsent
        exact absurd habsent hpresent
      · exact ⟨result, hpr, hsig⟩

/-- Witness for C10: with a pending transaction in state, a raising bridge
execution leaves the state unchanged and yields the error status dict. -/
theorem c10_bridge_pending_kept_unless_signature_witness :
    ((PyResult.exn "boom" : PyResult PyVal) = PyResult.exn "boom")
    ∧ (executeBridgeTx [("pending_bridge_tx", PyVal.vdict [("orderId", PyVal.vstr "x")])]
        (PyResult.exn "boom")).1 = [("pending_bridge_tx", PyVal.vdict [("orderId", PyVal.vstr "x")])]
    ∧ (executeBridgeTx [("pending_bridge_tx", PyVal.vdict [("orderId", PyVal.vstr "x")])]
        (PyResult.exn "boom")).2 =
        (if pyTruthy ((assoc [("pending_bridge_tx", PyVal.vdict [("orderId", PyVal.vstr "x")])]
            "pending_bridge_tx").getD .vnone) then errorDict "boom"
         else errorDict "No pending bridge transaction") :=
  ⟨rfl,
   ((c10_bridge_pending_kept_unless_signature
      [("pending_bridge_tx", PyVal.vdict [("orderId", PyVal.vstr "x")])]
      (PyResult.exn "boom")).2.1 "boom" rfl).1,
   ((c10_bridge_pending_kept_unless_signature
      [("pending_bridge_tx", PyVal.vdict [("orderId", PyVal.vstr "x")])]
      (PyResult.exn "boom")).2.1 "boom" rfl).2⟩

/-- The time adjustment multiplies each weight by the factor of its task
name at that hour. -/
theorem adjustWeightsForTime_eq_map (hour : ℕ) (tasks : List Task) (m : TimeMultipliers) :
    adjustWeightsForTime hour tasks m =
      tasks.map (fun t => t.weight * timeFactor hour t.name m) := by
  simp only [adjustWeightsForTime]
  by_cases h1 : 1 ≤ hour ∧ hour ≤ 5
  · by_cases h2 : 8 ≤ hour ∧ hour ≤ 20
    · exact absurd (And.intro h1.2 h2.1) (by omega)
    · rw [if_pos h1, if_neg h2]
      induction tasks with
      | nil => rfl
      | cons t ts ih =>
        simp only [List.map_cons, List.zip_cons_cons]
        rw [ih]
        congr 1
        by_cases hm : t.name ∈ postingTaskNames
        · rw [if_pos hm]
          unfold timeFactor
          rw [if_pos ⟨h1.1, h1.2, hm⟩]
        · rw [if_neg hm]
          unfold timeFactor
          rw [if_neg (fun hc => hm hc.2.2), if_neg (fun hc => h2 ⟨hc.1, hc.2.1⟩), mul_one]
  · by_cases h2 : 8 ≤ hour ∧ hour ≤ 20
    · rw [if_neg h1, if_pos h2]
      induction tasks with
      | nil => rfl
      | cons t ts ih =>
        simp only [List.map_cons, List.zip_cons_cons]
        rw [ih]
        congr 1
        by_cases hm : t.name ∈ engagementTaskNames
        · rw [if_pos hm]
          unfold timeFactor
          rw [if_neg (fun hc => h1 ⟨hc.1, hc.2.1⟩), if_pos ⟨h2.1, h2.2, hm⟩]
        · rw [if_neg hm]
          unfold timeFactor
          rw [if_neg (fun hc => h1 ⟨hc.1, hc.2.1⟩), if_neg (fun hc => hm hc.2.2), mul_one]
    · rw [if_neg h1, if_neg h2]
      apply List.map_congr_left
      intro t _
      unfold timeFactor
      rw [if_neg (fun hc => h1 ⟨hc.1, hc.2.1⟩), if_neg (fun hc => h2 ⟨hc.1, hc.2.1⟩), mul_one]

/-- C3: in time-based selection mode, a night hour (1 to 5) multiplies
exactly the posting-category weights by the night multiplier (default 2/5),
a day hour (8 to 20) multiplies exactly the engagement-category weights by
the day multiplier (default 3/2), and every other task weight is unchanged
at every hour; concretely a post-tweet task of weight 10 at hour 3 adjusts
to exactly 4, and a reply-to-tweet task of weight 5 at hour 14 adjusts to
exactly 15/2. -/
theorem c3_time_based_weight_adjustment :
    (∀ hour tasks m, adjustWeightsForTime hour tasks m =
       tasks.map (fun t => t.weight * timeFactor hour t.name m))
    ∧ (∀ hour name m, 1 ≤ hour → hour ≤ 5 → name ∈ postingTaskNames →
        timeFactor hour name m = m.tweet_night_multiplier.getD (2/5))
    ∧ (∀ hour name m, 8 ≤ hour → hour ≤ 20 → name ∈ engagementTaskNames →
        timeFactor hour name m = m.engagement_day_multiplier.getD (3/2))
    ∧ (∀ hour name m, name ∉ postingTaskNames → name ∉ engagementTaskNames →
        timeFactor hour name m = 1)
    ∧ adjustWeightsForTime 3 [⟨"post-tweet", 10⟩] ⟨none, none⟩ = [(4 : ℚ)]
    ∧ adjustWeightsForTime 14 [⟨"reply-to-tweet", 5⟩] ⟨none, none⟩ = [(15/2 : ℚ)] := by
  refine ⟨adjustWeightsForTime_eq_map, ?_, ?_, ?_, ?_, ?_⟩
  · intro hour name m ha hb hm
    unfold timeFactor
    rw [if_pos ⟨ha, hb, hm⟩]
  · intro hour name m ha hb hm
    unfold timeFactor
    rw [if_neg (fun hc => absurd hc.2.1 (by omega)), if_pos ⟨ha, hb, hm⟩]
  · intro hour name m hpost heng
    unfold timeFactor
    rw [if_neg (fun hc => hpost hc.2.2), if_neg (fun hc => heng hc.2.2)]
  · norm_num [adjustWeightsForTime, postingTaskNames, engagementTaskNames]
  · norm_num [adjustWeightsForTime, postingTaskNames, engagementTaskNames]

/-- Witness for C3: the night conjunct applied at hour 3 to the post-tweet
task with the default multiplier table. -/
theorem c3_time_based_weight_adjustment_witness :
    ((1 : ℕ) ≤ 3) ∧ ((3 : ℕ) ≤ 5) ∧ "post-tweet" ∈ postingTaskNames
    ∧ timeFactor 3 "post-tweet" ⟨none, none⟩ =
        (TimeMultipliers.mk none none).tweet_night_multiplier.getD (2/5) :=
  ⟨by decide, by decide, by decide,
   c3_time_based_weight_adjustment.2.1 3 "post-tweet" ⟨none, none⟩
     (by decide) (by decide) (by decide)⟩

/-- The cumulative weight list has one entry per weight. -/
theorem cumWeights_length (ws : List ℚ) : (cumWeights ws).length = ws.length := by
  induction ws with
  | nil => rfl
  | cons w ws ih => simp [cumWeights, ih]

/-- Partial sums of non-negative weights are non-negative. -/
theorem cumWeights_nonneg (ws : List ℚ) (hw : ∀ w ∈ ws, 0 ≤ w) :
    ∀ c ∈ cumWeights ws, 0 ≤ c := by
  induction ws with
  | nil => intro c hc; simp [cumWeights] at hc
  | cons w ws ih =>
    intro c hc
    simp only [cumWeights, List.mem_cons, List.mem_map] at hc
    rcases hc with rfl | ⟨c0, hc0, rfl⟩
    · exact hw c (by simp)
    · exact add_nonneg (hw w (by simp)) (ih (fun x hx => hw x (by simp [hx])) c0 hc0)

/-- Shifting a list by a constant shifts its last default. -/
theorem getLastD_map_add (w : ℚ) (l : List ℚ) :
    ∀ d : ℚ, (l.map (fun c => w + c)).getLastD (w + d) = w + l.getLastD d := by
  induction l with
  | nil => intro d; rfl
  | cons x xs ih =>
    intro d
    rw [List.map_cons, List.getLastD_cons, List.getLastD_cons]
    exact ih x

/-- The last cumulative weight (with default 0) is the total weight, the
sum over every entry of the list. -/
theorem cumWeights_getLastD (ws : List ℚ) : (cumWeights ws).getLastD 0 = ws.sum := by
  induction ws with
  | nil => rfl
  | cons w ws ih =>
    show (w :: (cumWeights ws).map (fun c => w + c)).getLastD 0 = (w :: ws).sum
    rw [List.getLastD_cons]
    have h := getLastD_map_add w (cumWeights ws) 0
    rw [add_zero] at h
    rw [h, ih, List.sum_cons]

/-- The inverse-CDF scan lands on an index inside the list whose weight is
positive, whenever the draw is inside the total. -/
theorem scanIdx_spec : ∀ (ws : List ℚ) (x : ℚ), (∀ w ∈ ws, 0 ≤ w) → 0 ≤ x → x < ws.sum →
    scanIdx ws x < ws.length ∧ 0 < ws.getD (scanIdx ws x) 0 := by
  intro ws
  induction ws with
  | nil =>
    intro x hw hx0 hxs
    simp only [List.sum_nil] at hxs
    exact absurd (lt_of_le_of_lt hx0 hxs) (lt_irrefl 0)
  | cons w ws ih =>
    intro x hw hx0 hxs
    by_cases hlt : x < w
    · refine ⟨by simp [scanIdx, hlt], ?_⟩
      simp only [scanIdx, if_pos hlt, List.getD_cons_zero]
      exact lt_of_le_of_lt hx0 hlt
    · have hw2 : ∀ v ∈ ws, 0 ≤ v := fun v hv => hw v (by simp [hv])
      have hx0b : 0 ≤ x - w := by
        have := not_lt.mp hlt
        linarith
      have hxsb : x - w < ws.sum := by
        rw [List.sum_cons] at hxs
        linarith
      obtain ⟨hlen, hpos⟩ := ih (x - w) hw2 hx0b hxsb
      refine ⟨?_, ?_⟩
      · simp only [scanIdx, if_neg hlt, List.length_cons]
        omega
      · simp only [scanIdx, if_neg hlt, List.getD_cons_succ]
        exact hpos

/-- Counting a pointwise-equal predicate gives the same count. -/
theorem countP_ext (l : List ℚ) (p q : ℚ → Bool) (h : ∀ a ∈ l, p a = q a) :
    l.countP p = l.countP q := by
  induction l with
  | nil => rfl
  | cons a l ih =>
    rw [List.countP_cons, List.countP_cons, h a (by simp),
        ih (fun b hb => h b (by simp [hb]))]

/-- The CPython bisect over cumulative weights computes the inverse-CDF
scan, for non-negative weights and a draw inside the total. -/
theorem bisect_eq_scanIdx : ∀ (ws : List ℚ) (x : ℚ), (∀ w ∈ ws, 0 ≤ w) → 0 ≤ x → x < ws.sum →
    bisectRight (cumWeights ws) x (ws.length - 1) = scanIdx ws x := by
  intro ws
  induction ws with
  | nil =>
    intro x hw hx0 hxs
    simp only [List.sum_nil] at hxs
    exact absurd (lt_of_le_of_lt hx0 hxs) (lt_irrefl 0)
  | cons w tail ih =>
    intro x hw hx0 hxs
    cases tail with
    | nil =>
      have hxw : x < w := by
        simpa using hxs
      simp [bisectRight, cumWeights, scanIdx, hxw]
    | cons w2 ws2 =>
      have hlen : (w :: w2 :: ws2).length - 1 = (w2 :: ws2).length := by simp
      rw [hlen]
      show ((cumWeights (w :: w2 :: ws2)).take (w2 :: ws2).length).countP
          (fun c => decide (c ≤ x)) = scanIdx (w :: w2 :: ws2) x
      have hcum : cumWeights (w :: w2 :: ws2) =
          w :: (cumWeights (w2 :: ws2)).map (fun c => w + c) := rfl
      rw [hcum]
      have htake : (w :: (cumWeights (w2 :: ws2)).map (fun c => w + c)).take (w2 :: ws2).length =
          w :: ((cumWeights (w2 :: ws2)).map (fun c => w + c)).take (ws2.length + 1 - 1) := by
        simp [List.take_succ_cons]
      rw [htake]
      rw [List.countP_cons]
      by_cases hlt : x < w
      · have hcw : (decide (w ≤ x)) = false := by
          simp [not_le.mpr hlt]
        rw [hcw]
        have hzero : (((cumWeights (w2 :: ws2)).map (fun c => w + c)).take (ws2.length + 1 - 1)).countP
            (fun c => decide (c ≤ x)) = 0 := by
          rw [List.countP_eq_zero]
          intro a ha
          have ha2 : a ∈ ((cumWeights (w2 :: ws2)).map (fun c => w + c)) := List.mem_of_mem_take ha
          rcases List.mem_map.mp ha2 with ⟨c0, hc0, rfl⟩
          have hc0n : 0 ≤ c0 :=
            cumWeights_nonneg (w2 :: ws2) (fun v hv => hw v (by simp [hv])) c0 hc0
          simp only [decide_eq_true_eq]
          intro hle
          linarith
        rw [hzero]
        simp [scanIdx, hlt]
      · have hcw : (decide (w ≤ x)) = true := by
          simp [not_lt.mp hlt]
        rw [hcw]
        have hmap : (((cumWeights (w2 :: ws2)).map (fun c => w + c)).take (ws2.length + 1 - 1)) =
            (((cumWeights (w2 :: ws2)).take (ws2.length + 1 - 1)).map (fun c => w + c)) := by
          rw [List.map_take]
        rw [hmap, List.countP_map]
        have hcong : ((cumWeights (w2 :: ws2)).take (ws2.length + 1 - 1)).countP
            ((fun c => decide (c ≤ x)) ∘ (fun c => w + c)) =
            ((cumWeights (w2 :: ws2)).take (ws2.length + 1 - 1)).countP
            (fun c => decide (c ≤ x - w)) := by
          apply countP_ext
          intro a _
          simp only [Function.comp]
          by_cases hax : w + a ≤ x
          · have h2 : a ≤ x - w := by linarith
            simp [hax, h2]
          · have h2 : ¬ a ≤ x - w := fun hc => hax (by linarith)
            simp [hax, h2]
        rw [hcong]
        have hx0b : 0 ≤ x - w := by
          have := not_lt.mp hlt
          linarith
        have hxsb : x - w < (w2 :: ws2).sum := by
          rw [List.sum_cons] at hxs
          linarith
        have hih := ih (x - w) (fun v hv => hw v (by simp [hv])) hx0b hxsb
        unfold bisectRight at hih
        have hlen2 : (w2 :: ws2).length - 1 = ws2.length + 1 - 1 := by simp
        rw [hlen2] at hih
        rw [hih]
        simp [scanIdx, hlt]

/-- C4: the loop selection is one weighted draw over the whole task list:
for non-negative weights with positive total and any uniform draw in
the unit interval, `random.choices` returns a task of the list with
strictly positive weight — a weight-0 task is never selected — while the
total bisected against is the sum over every task of the list, zero
weights included. -/
theorem c4_zero_weight_never_selected (tasks : List Task) (r : ℚ)
    (hw : ∀ t ∈ tasks, 0 ≤ t.weight) (hr0 : 0 ≤ r) (hr1 : r < 1)
    (hpos : 0 < totalWeight tasks) :
    (∃ t, chooseTaskE tasks r = .ok t ∧ t ∈ tasks ∧ 0 < t.weight)
    ∧ (cumWeights (tasks.map Task.weight)).getLastD 0 = totalWeight tasks := by
  have hlast : (cumWeights (tasks.map Task.weight)).getLastD 0 = totalWeight tasks :=
    cumWeights_getLastD (tasks.map Task.weight)
  refine ⟨?_, hlast⟩
  cases tasks with
  | nil =>
    unfold totalWeight at hpos
    simp at hpos
  | cons t0 ts =>
    have hws : ∀ w ∈ (t0 :: ts).map Task.weight, 0 ≤ w := by
      intro w hmem
      rcases List.mem_map.mp hmem with ⟨t, ht, rfl⟩
      exact hw t ht
    have hx0 : 0 ≤ r * totalWeight (t0 :: ts) := mul_nonneg hr0 (le_of_lt hpos)
    have hxs : r * totalWeight (t0 :: ts) < ((t0 :: ts).map Task.weight).sum := by
      have h1 : r * totalWeight (t0 :: ts) < 1 * totalWeight (t0 :: ts) :=
        mul_lt_mul_of_pos_right hr1 hpos
      rw [one_mul] at h1
      exact h1
    have hscan := scanIdx_spec ((t0 :: ts).map Task.weight) (r * totalWeight (t0 :: ts))
      hws hx0 hxs
    have hbis := bisect_eq_scanIdx ((t0 :: ts).map Task.weight) (r * totalWeight (t0 :: ts))
      hws hx0 hxs
    have hidx : pyChoicesIndex ((t0 :: ts).map Task.weight) r =
        scanIdx ((t0 :: ts).map Task.weight) (r * totalWeight (t0 :: ts)) := by
      simp only [pyChoicesIndex]
      rw [hlast]
      exact hbis
    have hlen : scanIdx ((t0 :: ts).map Task.weight) (r * totalWeight (t0 :: ts)) <
        (t0 :: ts).length := by
      have := hscan.1
      rwa [List.length_map] at this
    have hnle : ¬ ((cumWeights ((t0 :: ts).map Task.weight)).getLastD 0 ≤ 0) := by
      rw [hlast]
      exact not_le.mpr hpos
    have hchoose : chooseTaskE (t0 :: ts) r =
        .ok ((t0 :: ts).getD (pyChoicesIndex ((t0 :: ts).map Task.weight) r) t0) := by
      simp only [chooseTaskE]
      rw [if_neg hnle]
    refine ⟨(t0 :: ts).getD (pyChoicesIndex ((t0 :: ts).map Task.weight) r) t0, hchoose, ?_, ?_⟩
    · rw [hidx, List.getD_eq_getElem _ _ hlen]
      exact List.getElem_mem hlen
    · have hgd : ((t0 :: ts).map Task.weight).getD
          (scanIdx ((t0 :: ts).map Task.weight) (r * totalWeight (t0 :: ts))) 0 =
          ((t0 :: ts).getD
            (scanIdx ((t0 :: ts).map Task.weight) (r * totalWeight (t0 :: ts))) t0).weight := by
        rw [List.getD_eq_getElem _ _ hscan.1, List.getD_eq_getElem _ _ hlen]
        exact List.getElem_map Task.weight
      rw [hidx]
      rw [← hgd]
      exact hscan.2

/-- Witness for C4: the spec example tasks, post with weight 0 and like
with weight 10, at the draw one half. -/
theorem c4_zero_weight_never_selected_witness :
    (∀ t ∈ [Task.mk "post" 0, Task.mk "like" 10], 0 ≤ t.weight)
    ∧ (0 : ℚ) ≤ 1/2 ∧ (1/2 : ℚ) < 1 ∧ 0 < totalWeight [Task.mk "post" 0, Task.mk "like" 10]
    ∧ ∃ t, chooseTaskE [Task.mk "post" 0, Task.mk "like" 10] (1/2) = .ok t
        ∧ t ∈ [Task.mk "post" 0, Task.mk "like" 10] ∧ 0 < t.weight :=
  ⟨by norm_num, by norm_num, by norm_num, by norm_num [totalWeight],
   (c4_zero_weight_never_selected [Task.mk "post" 0, Task.mk "like" 10] (1/2)
      (by norm_num) (by norm_num) (by norm_num) (by norm_num [totalWeight])).1⟩

/-- The post-tweet branch never touches the state dict (it only updates
`last_tweet_time`). -/
theorem postTweetBranch_state (cfg : LoopConfig) (env : LoopEnv) (st : LoopState) :
    (stateOf (postTweetBranch cfg env st)).state = st.state := by
  unfold postTweetBranch finishSleep
  repeat' split
  all_goals rfl

/-- The reply branch leaves the state dict alone or rewrites only the
`timeline_tweets` key, always to a present list value. -/
theorem replyBranch_state_cases (cfg : LoopConfig) (env : LoopEnv) (st : LoopState) :
    (stateOf (replyBranch cfg env st)).state = st.state ∨
    ∃ l, (stateOf (replyBranch cfg env st)).state =
      { st.state with timeline_tweets := some (some l) } := by
  unfold replyBranch finishSleep
  repeat' split
  all_goals first
    | (left; rfl)
    | (right; exact ⟨_, rfl⟩)

/-- The like branch leaves the state dict alone or pops one timeline
tweet, keeping the key present. -/
theorem likeBranch_state_cases (cfg : LoopConfig) (env : LoopEnv) (st : LoopState) :
    (stateOf (likeBranch cfg env st)).state = st.state ∨
    ∃ l, (stateOf (likeBranch cfg env st)).state =
      { st.state with timeline_tweets := some (some l) } := by
  unfold likeBranch finishSleep
  repeat' split
  all_goals first
    | (left; rfl)
    | (right; exact ⟨_, rfl⟩)

/-- Dispatch preserves the state dict up to rewriting the timeline key. -/
theorem dispatchTask_state_cases (cfg : LoopConfig) (env : LoopEnv) (st : LoopState)
    (action_name : String) :
    (stateOf (dispatchTask cfg env st action_name)).state = st.state ∨
    ∃ l, (stateOf (dispatchTask cfg env st action_name)).state =
      { st.state with timeline_tweets := some (some l) } := by
  unfold dispatchTask
  split
  · exact Or.inl (postTweetBranch_state cfg env st)
  · split
    · exact replyBranch_state_cases cfg env st
    · split
      · exact likeBranch_state_cases cfg env st
      · exact Or.inl rfl

/-- Selection plus dispatch preserve the state dict up to the timeline
key. -/
theorem afterReplenish_state_cases (cfg : LoopConfig) (env : LoopEnv) (st : LoopState) :
    (stateOf (afterReplenish cfg env st)).state = st.state ∨
    ∃ l, (stateOf (afterReplenish cfg env st)).state =
      { st.state with timeline_tweets := some (some l) } := by
  unfold afterReplenish
  split
  · exact Or.inl rfl
  · exact dispatchTask_state_cases cfg env st _

/-- One whole iteration either leaves the state dict unchanged or rewrites
exactly the `timeline_tweets` key, leaving it present; all other keys are
untouched. -/
theorem loopIteration_state_cases (cfg : LoopConfig) (env : LoopEnv) (st : LoopState) :
    (stateOf (loopIteration cfg env st)).state = st.state ∨
    ∃ v, (stateOf (loopIteration cfg env st)).state =
      { st.state with timeline_tweets := some v } := by
  unfold loopIteration
  split
  · exact Or.inl rfl
  · split
    · split
      · exact Or.inl rfl
      · next v _ =>
        rcases afterReplenish_state_cases cfg env
            { st with state := { st.state with timeline_tweets := some v } } with hc | ⟨l, hc⟩
        · exact Or.inr ⟨v, hc⟩
        · exact Or.inr ⟨some l, hc⟩
    · rcases afterReplenish_state_cases cfg env st with hc | ⟨l, hc⟩
      · exact Or.inl hc
      · exact Or.inr ⟨some l, hc⟩

/-- C5: every exception raised inside the try body of one loop iteration
is caught at the loop boundary: the loop logs it, sleeps `loop_delay`, and
proceeds with the locals the iteration had built — it never terminates the
process — and the state dict is intact: every key other than
`timeline_tweets` is untouched, and the `timeline_tweets` key, once
present, stays present. -/
theorem c5_loop_exception_contained (cfg : LoopConfig) (env : LoopEnv) (st : LoopState)
    (e : String) (st1 : LoopState)
    (h : loopIteration cfg env st = .exn e st1) :
    loopStep cfg env st = ⟨st1, cfg.loop_delay⟩
    ∧ st1.state.extras = st.state.extras
    ∧ (st.state.timeline_tweets.isSome = true → st1.state.timeline_tweets.isSome = true) := by
  have hst : stateOf (loopIteration cfg env st) = st1 := by
    rw [h]
    rfl
  refine ⟨?_, ?_, ?_⟩
  · unfold loopStep
    rw [h]
  · rcases loopIteration_state_cases cfg env st with hc | ⟨v, hc⟩
    · rw [hst] at hc
      rw [hc]
    · rw [hst] at hc
      rw [hc]
  · intro hkey
    rcases loopIteration_state_cases cfg env st with hc | ⟨v, hc⟩
    · rw [hst] at hc
      rw [hc]
      exact hkey
    · rw [hst] at hc
      rw [hc]
      rfl

/-- Witness for C5: a timeline fetch that raises is caught, the loop
sleeps `loop_delay` and continues with the same locals. -/
theorem c5_loop_exception_contained_witness :
    (loopIteration ⟨"agent", "user", 5, 900, 2, [⟨"post-tweet", 1⟩]⟩
        ⟨0, 0, 0, .exn "boom", .ok none, .ok (), .ok none, .ok (), .ok ()⟩
        ⟨⟨none, [("k", PyVal.vstr "v")]⟩, 0, none, none⟩ =
      .exn "boom" ⟨⟨none, [("k", PyVal.vstr "v")]⟩, 0, none, none⟩)
    ∧ loopStep ⟨"agent", "user", 5, 900, 2, [⟨"post-tweet", 1⟩]⟩
        ⟨0, 0, 0, .exn "boom", .ok none, .ok (), .ok none, .ok (), .ok ()⟩
        ⟨⟨none, [("k", PyVal.vstr "v")]⟩, 0, none, none⟩ =
      ⟨⟨⟨none, [("k", PyVal.vstr "v")]⟩, 0, none, none⟩,
       (⟨"agent", "user", 5, 900, 2, [⟨"post-tweet", 1⟩]⟩ : LoopConfig).loop_delay⟩
    ∧ (⟨⟨none, [("k", PyVal.vstr "v")]⟩, 0, none, none⟩ : LoopState).state.extras =
      (⟨⟨none, [("k", PyVal.vstr "v")]⟩, 0, none, none⟩ : LoopState).state.extras :=
  ⟨rfl,
   (c5_loop_exception_contained ⟨"agent", "user", 5, 900, 2, [⟨"post-tweet", 1⟩]⟩
      ⟨0, 0, 0, .exn "boom", .ok none, .ok (), .ok none, .ok (), .ok ()⟩
      ⟨⟨none, [("k", PyVal.vstr "v")]⟩, 0, none, none⟩ "boom"
      ⟨⟨none, [("k", PyVal.vstr "v")]⟩, 0, none, none⟩ rfl).1,
   (c5_loop_exception_contained ⟨"agent", "user", 5, 900, 2, [⟨"post-tweet", 1⟩]⟩
      ⟨0, 0, 0, .exn "boom", .ok none, .ok (), .ok none, .ok (), .ok ()⟩
      ⟨⟨none, [("k", PyVal.vstr "v")]⟩, 0, none, none⟩ "boom"
      ⟨⟨none, [("k", PyVal.vstr "v")]⟩, 0, none, none⟩ rfl).2.1⟩

/-- The reply branch never posts a tweet. -/
theorem replyBranch_posted (cfg : LoopConfig) (env : LoopEnv) (st : LoopState) :
    postedOf (replyBranch cfg env st) = false := by
  unfold replyBranch finishSleep
  repeat' split
  all_goals rfl

/-- The like branch never posts a tweet. -/
theorem likeBranch_posted (cfg : LoopConfig) (env : LoopEnv) (st : LoopState) :
    postedOf (likeBranch cfg env st) = false := by
  unfold likeBranch finishSleep
  repeat' split
  all_goals rfl

/-- The post branch performs no posting call while the interval has not
elapsed. -/
theorem postTweetBranch_posted_cooldown (cfg : LoopConfig) (env : LoopEnv) (st : LoopState)
    (h : env.now2 - st.last_tweet_time < cfg.tweet_interval) :
    postedOf (postTweetBranch cfg env st) = false := by
  unfold postTweetBranch
  rw [if_neg (not_le.mpr h)]
  rfl

/-- After selection and dispatch, no posting call happens while the
interval has not elapsed. -/
theorem afterReplenish_no_post (cfg : LoopConfig) (env : LoopEnv) (st : LoopState)
    (h : env.now2 - st.last_tweet_time < cfg.tweet_interval) :
    postedOf (afterReplenish cfg env st) = false := by
  unfold afterReplenish
  split
  · rfl
  · unfold dispatchTask
    split
    · exact postTweetBranch_posted_cooldown cfg env st h
    · split
      · exact replyBranch_posted cfg env st
      · split
        · exact likeBranch_posted cfg env st
        · rfl

/-- A whole iteration performs no posting call while the interval has not
elapsed since the last post. -/
theorem loopIteration_no_post_in_cooldown (cfg : LoopConfig) (env : LoopEnv) (st : LoopState)
    (h : env.now2 - st.last_tweet_time < cfg.tweet_interval) :
    postedOf (loopIteration cfg env st) = false := by
  unfold loopIteration
  split
  · rfl
  · split
    · split
      · rfl
      · exact afterReplenish_no_post cfg env _ h
    · exact afterReplenish_no_post cfg env st h

/-- When the post branch reports a posted tweet, it set `last_tweet_time`
to the fresh clock value. -/
theorem postTweetBranch_posted_sets_last (cfg : LoopConfig) (env : LoopEnv) (st : LoopState)
    (st1 : LoopState) (succ : Bool) (sl : ℚ)
    (h : postTweetBranch cfg env st = .ok st1 succ sl true) :
    st1.last_tweet_time = env.now2 := by
  unfold postTweetBranch finishSleep at h
  split at h
  · split at h
    · exact IterOut.noConfusion h
    · split at h
      · split at h
        · exact IterOut.noConfusion h
        · injection h with h1 h2 h3 h4
          rw [← h1]
      · injection h with h1 h2 h3 h4
        exact Bool.noConfusion h4
  · injection h with h1 h2 h3 h4
    exact Bool.noConfusion h4

/-- When selection and dispatch report a posted tweet, `last_tweet_time`
became the fresh clock value. -/
theorem afterReplenish_posted_sets_last (cfg : LoopConfig) (env : LoopEnv) (st : LoopState)
    (st1 : LoopState) (succ : Bool) (sl : ℚ)
    (h : afterReplenish cfg env st = .ok st1 succ sl true) :
    st1.last_tweet_time = env.now2 := by
  unfold afterReplenish at h
  split at h
  · exact IterOut.noConfusion h
  · unfold dispatchTask at h
    split at h
    · exact postTweetBranch_posted_sets_last cfg env st st1 succ sl h
    · split at h
      · have hp := replyBranch_posted cfg env st
        rw [h] at hp
        exact Bool.noConfusion hp
      · split at h
        · have hp := likeBranch_posted cfg env st
          rw [h] at hp
          exact Bool.noConfusion hp
        · injection h with h1 h2 h3 h4
          exact Bool.noConfusion h4

/-- When an iteration reports a posted tweet, `last_tweet_time` became the
fresh clock value of that iteration. -/
theorem loopIteration_posted_sets_last (cfg : LoopConfig) (env : LoopEnv) (st : LoopState)
    (st1 : LoopState) (succ : Bool) (sl : ℚ)
    (h : loopIteration cfg env st = .ok st1 succ sl true) :
    st1.last_tweet_time = env.now2 := by
  unfold loopIteration at h
  split at h
  · injection h with h1 h2 h3 h4
    exact Bool.noConfusion h4
  · split at h
    · split at h
      · exact IterOut.noConfusion h
      · exact afterReplenish_posted_sets_last cfg env _ st1 succ sl h
    · exact afterReplenish_posted_sets_last cfg env st st1 succ sl h

/-- C6: when the post-tweet task is selected before `tweet_interval` has
elapsed since the last post, the iteration makes no posting call, reports
non-success, skips the sleep via `continue`, and keeps the freshly
replenished timeline and `last_tweet_time` untouched; moreover no
iteration inside the interval ever posts, and a posting iteration stamps
`last_tweet_time` with its own clock value, so the posting call runs at
most once per interval. -/
theorem c6_post_cooldown_skip (cfg : LoopConfig) (env : LoopEnv) (st : LoopState)
    (v : Option (List Tweet)) (task : Task)
    (hnl : resetActive st.timeline_limit_reset env.now = false)
    (hempty : timelineEmpty st.state.timeline_tweets = true)
    (hfetch : env.read_timeline = PyResult.ok v)
    (hchoose : chooseTaskE cfg.tasks env.r = .ok task)
    (hname : task.name = "post-tweet")
    (hcool : env.now2 - st.last_tweet_time < cfg.tweet_interval) :
    loopIteration cfg env st =
      .ok { st with state := { st.state with timeline_tweets := some v } } false 0 false
    ∧ (∀ env2 st0 st2 succ2 sl2, env2.now2 - st0.last_tweet_time < cfg.tweet_interval →
        loopIteration cfg env2 st0 = .ok st2 succ2 sl2 true → False)
    ∧ (∀ env1 st0 st2 succ1 sl1, loopIteration cfg env1 st0 = .ok st2 succ1 sl1 true →
        st2.last_tweet_time = env1.now2) := by
  refine ⟨?_, ?_, ?_⟩
  · have h1 : loopIteration cfg env st = afterReplenish cfg env
        { st with state := { st.state with timeline_tweets := some v } } := by
      unfold loopIteration
      rw [hnl, hempty, hfetch]
      simp
    rw [h1]
    unfold afterReplenish
    simp only [hchoose]
    rw [hname]
    unfold dispatchTask
    rw [if_pos (show ("post-tweet" == "post-tweet") = true from rfl)]
    unfold postTweetBranch
    rw [if_neg (not_le.mpr hcool)]
  · intro env2 st0 st2 succ2 sl2 hc2 hiter
    have hp := loopIteration_no_post_in_cooldown cfg env2 st0 hc2
    rw [hiter] at hp
    exact Bool.noConfusion hp
  · intro env1 st0 st2 succ1 sl1 hiter
    exact loopIteration_posted_sets_last cfg env1 st0 st2 succ1 sl1 hiter

/-- Witness for C6: the post-tweet task drawn 100 seconds after the last
post with a 900 second interval: the iteration skips, keeps the fetched
timeline, stays non-success and posts nothing. -/
theorem c6_post_cooldown_skip_witness :
    (resetActive (none : Option ℚ) 1000 = false)
    ∧ timelineEmpty (none : Option (Option (List Tweet))) = true
    ∧ chooseTaskE [⟨"post-tweet", 1⟩] 0 = .ok ⟨"post-tweet", 1⟩
    ∧ ((100 : ℚ) - 0 < 900)
    ∧ loopIteration ⟨"a", "u", 5, 900, 2, [⟨"post-tweet", 1⟩]⟩
        ⟨1000, 100, 0, .ok (some []), .ok (some "t"), .ok (), .ok none, .ok (), .ok ()⟩
        ⟨⟨none, []⟩, 0, none, none⟩ =
      .ok ⟨⟨some (some []), []⟩, 0, none, none⟩ false 0 false :=
  ⟨rfl, rfl,
   by norm_num [chooseTaskE, cumWeights, pyChoicesIndex, bisectRight],
   by norm_num,
   (c6_post_cooldown_skip ⟨"a", "u", 5, 900, 2, [⟨"post-tweet", 1⟩]⟩
      ⟨1000, 100, 0, .ok (some []), .ok (some "t"), .ok (), .ok none, .ok (), .ok ()⟩
      ⟨⟨none, []⟩, 0, none, none⟩ (some []) ⟨"post-tweet", 1⟩
      rfl rfl rfl
      (by norm_num [chooseTaskE, cumWeights, pyChoicesIndex, bisectRight])
      rfl (by norm_num)).1⟩

end ZerePy
